import Mathlib

/-!
Verification of the NPEC Ecotron dashboard analytical engine
(src/dashboard.py) against its natural-language specification.

Shallow embedding conventions:
* A pandas/numpy float is modelled as `RFloat := Option ℚ`, with `none`
  standing for NaN (missing value).  Arithmetic on `RFloat` propagates
  `none` exactly as IEEE arithmetic propagates NaN; Python comparisons
  involving NaN are false, which `rlt` reproduces.
* A tabular row is a total valuation from column names to `RFloat`
  (the columns named by the claims are assumed present in the frame;
  an absent value is `none`).
* Timestamps are modelled at the granularity each function consumes:
  `resample_data` uses absolute minutes (`Nat`), while the seasonal
  pipeline uses calendar dates (`Date`), whose `dayOfYear` reproduces
  the semantics of pandas ``Series.dt.dayofyear``.
-/

/-- Floating point value with NaN: `none` is NaN / missing. -/
abbrev RFloat := Option ℚ

/-- Addition with NaN propagation. -/
def radd : RFloat → RFloat → RFloat
  | some a, some b => some (a + b)
  | _, _ => none

/-- Subtraction with NaN propagation. -/
def rsub : RFloat → RFloat → RFloat
  | some a, some b => some (a - b)
  | _, _ => none

/-- Multiplication with NaN propagation. -/
def rmul : RFloat → RFloat → RFloat
  | some a, some b => some (a * b)
  | _, _ => none

/-- Division with NaN propagation (the zero-denominator case inherits
ℚ's `q / 0 = 0`; no theorem below depends on it). -/
def rdiv : RFloat → RFloat → RFloat
  | some a, some b => some (a / b)
  | _, _ => none

/-- Absolute value with NaN propagation. -/
def rabs : RFloat → RFloat
  | some a => some |a|
  | none => none

/-- Python `<` on floats: any comparison involving NaN is false. -/
def rlt : RFloat → RFloat → Bool
  | some a, some b => decide (a < b)
  | _, _ => false

/-- Python two-argument `min`: returns the first argument unless the
second compares strictly smaller (hence `min(c, nan) = c`). -/
def pymin (a b : RFloat) : RFloat := if rlt b a then b else a

/-- Python two-argument `max`: returns the first argument unless the
second compares strictly greater (hence `max(c, nan) = c`). -/
def pymax (a b : RFloat) : RFloat := if rlt a b then b else a

/-- Sum of a list of floats, NaN-propagating (numpy `sum`). -/
def rsum (l : List RFloat) : RFloat := l.foldr radd (some 0)

/-- Mean of the (already NaN-free) values; `none` when the list is
empty, matching pandas `mean` with `skipna=True` over an all-NaN or
empty selection. -/
def meanQ (l : List ℚ) : RFloat :=
  if l.length = 0 then none else some (l.sum / l.length)

/-- Insert into a sorted list of rationals (ascending). -/
def insertQ (q : ℚ) : List ℚ → List ℚ
  | [] => [q]
  | x :: xs => if q ≤ x then q :: x :: xs else x :: insertQ q xs

/-- Ascending insertion sort on rationals. -/
def sortQ (l : List ℚ) : List ℚ := l.foldr insertQ []

/-- pandas `Series.median` over the non-missing values: `none` (NaN)
when there are no values, the middle element for odd length, and the
mean of the two middle elements for even length. -/
def medianQ (l : List ℚ) : RFloat :=
  let s := sortQ l
  let n := s.length
  if n = 0 then none
  else if n % 2 = 1 then some (s.getD (n / 2) 0)
  else some ((s.getD (n / 2 - 1) 0 + s.getD (n / 2) 0) / 2)

/-- Insert into a sorted list of strings (ascending). -/
def insertStr (s : String) : List String → List String
  | [] => [s]
  | x :: xs => if s ≤ x then s :: x :: xs else x :: insertStr s xs

/-- Python `sorted` on a list of column names. -/
def sortStrings (l : List String) : List String := l.foldr insertStr []

/-!
## Gap filling (dashboard.py lines 709-710)

`data[numeric_cols] = data[numeric_cols].interpolate().ffill().bfill()`
is applied to the whole (ungrouped) frame, one column at a time, in row
order.  `interpolate` below fills interior NaN runs linearly between
their neighbouring valid values, treating values as equally spaced
(pandas `method='linear'` default); trailing NaNs are left to `ffill`
and leading NaNs to `bfill`, which produces exactly the same final
column as the pandas chain (pandas' own flat right-extrapolation is
overwritten identically by `ffill`).
-/

/-- Linearly interpolated values for a gap of `n` missing cells lying
between valid values `p` and `v`. -/
def gapVals (p v : ℚ) (n : Nat) : List RFloat :=
  (List.range n).map (fun k : Nat => some (p + (v - p) * ((k : ℚ) + 1) / ((n : ℚ) + 1)))

/-- Worker for `interpolate`: `prev` is the last valid value seen,
`pend` the number of NaNs accumulated since then. -/
def interpGo : Option ℚ → Nat → List RFloat → List RFloat
  | _, pend, [] => List.replicate pend none
  | prev, pend, none :: xs => interpGo prev (pend + 1) xs
  | prev, pend, some v :: xs =>
    (match prev with
     | some p => gapVals p v pend
     | none => List.replicate pend none) ++ some v :: interpGo (some v) 0 xs

/-- pandas `interpolate()` (linear, forward) on one column. -/
def interpolate (l : List RFloat) : List RFloat := interpGo none 0 l

/-- Worker for `ffill`: carries the last valid value forward. -/
def ffillGo : RFloat → List RFloat → List RFloat
  | _, [] => []
  | last, none :: xs => last :: ffillGo last xs
  | _, some v :: xs => some v :: ffillGo (some v) xs

/-- pandas `ffill()` on one column. -/
def ffill (l : List RFloat) : List RFloat := ffillGo none l

/-- pandas `bfill()` on one column: forward fill of the reversal. -/
def bfill (l : List RFloat) : List RFloat := (ffillGo none l.reverse).reverse

/-- The dashboard's numeric gap-fill chain on one column. -/
def gapFill (l : List RFloat) : List RFloat := bfill (ffill (interpolate l))

/-!
## Resampling (dashboard.py `resample_data`, lines 424-443)
-/

/-- One row of the prepared frame: timestamp in absolute minutes,
device, room, and the numeric column valuation. -/
structure PRow where
  ts : Nat
  device : String
  room : String
  val : String → RFloat

/-- The in-memory frame: the set of numeric columns and the rows. -/
structure PFrame where
  numCols : List String
  rows : List PRow

/-- Bucket length in minutes for the dashboard's frequency
enumeration ("Raw (10 min)", "30 min", "Hourly", "Daily"). -/
def freqMinutes : String → Option Nat
  | "10T" => some 10
  | "30T" => some 30
  | "1H" => some 60
  | "1D" => some 1440
  | _ => none

/-- Lexicographic order on (device, room) keys, as used by pandas
`groupby` (which sorts group keys). -/
def keyLe (a b : String × String) : Bool :=
  a.1 < b.1 || (a.1 = b.1 && a.2 ≤ b.2)

/-- Insert a key into a sorted duplicate-free key list. -/
def insertKey (x : String × String) : List (String × String) → List (String × String)
  | [] => [x]
  | y :: ys => if x = y then y :: ys else if keyLe x y then x :: y :: ys else y :: insertKey x ys

/-- The sorted distinct (device, room) group keys of the frame. -/
def groupKeys (rows : List PRow) : List (String × String) :=
  (rows.map (fun r => (r.device, r.room))).foldr insertKey []

/-- Rows belonging to one (device, room) group, in frame order. -/
def rowsFor (rows : List PRow) (k : String × String) : List PRow :=
  rows.filter (fun r => r.device = k.1 && r.room = k.2)

/-- Insert a row into a list sorted by timestamp. -/
def insertByTs (r : PRow) : List PRow → List PRow
  | [] => [r]
  | x :: xs => if r.ts ≤ x.ts then r :: x :: xs else x :: insertByTs r xs

/-- `group.set_index("timestamp").sort_index()`. -/
def sortByTs (rows : List PRow) : List PRow := rows.foldr insertByTs []

/-- Values of column `c` falling in time bucket `b` (bucket length `k`). -/
def bucketVals (rows : List PRow) (c : String) (k b : Nat) : List ℚ :=
  rows.filterMap (fun r => if r.ts / k = b then r.val c else none)

/-- `group[numeric_cols].resample(freq).mean()` for one group: one row
per bucket between the first and last observation, holding the bucket
mean of each numeric column (NaN for empty buckets); non-numeric
columns are dropped and device/room reattached. -/
def resampleGroup (cols : List String) (k : Nat) (dev room : String)
    (rows : List PRow) : List PRow :=
  match rows.map (fun r => r.ts) with
  | [] => []
  | t :: ts =>
    let b0 := (ts.foldr min t) / k
    let b1 := (ts.foldr max t) / k
    (List.range (b1 - b0 + 1)).map (fun j =>
      { ts := (b0 + j) * k, device := dev, room := room,
        val := fun c => if cols.contains c then meanQ (bucketVals rows c k (b0 + j)) else none })

/-- `resample_data` (dashboard.py lines 424-443): at the raw frequency
"10T" the frame is returned unchanged; otherwise rows are grouped by
(device, room) and numeric columns are averaged per time bucket.
(The source's early return when the "timestamp" column is absent is
not represented: the embedded frame always carries a timestamp.) -/
def resample_data (df : PFrame) (freq : String) : PFrame :=
  if freq = "10T" then df
  else
    match freqMinutes freq with
    | none => df
    | some k =>
      { numCols := df.numCols,
        rows := ((groupKeys df.rows).map
          (fun g => resampleGroup df.numCols k g.1 g.2 (sortByTs (rowsFor df.rows g)))).flatten }

/-- Column `c` of the resampled frame, with the device of each row:
the state of a numeric column just before gap filling. -/
def colAfterResample (df : PFrame) (freq : String) (c : String) : List (String × RFloat) :=
  (resample_data df freq).rows.map (fun r => (r.device, r.val c))

/-- Gap filling of one device-tagged column: the fill runs over the
whole column in row order (the source applies it to the ungrouped
frame). -/
def gapFillCol (col : List (String × RFloat)) : List (String × RFloat) :=
  (col.map Prod.fst).zip (gapFill (col.map Prod.snd))

/-- Column `c` after the full preparation pipeline: resampling
followed by the interpolate/ffill/bfill gap fill. -/
def prepareCol (df : PFrame) (freq : String) (c : String) : List (String × RFloat) :=
  gapFillCol (colAfterResample df freq c)

/-!
## Tension/moisture calibration (dashboard.py `derive_tension_targets`,
lines 460-483)
-/

/-- A row of the dataset as consumed by the calibrator: a valuation of
column names. -/
abbrev CalRow := String → RFloat

/-- The rows with non-missing values in both columns
(`mask = (~x.isna()) & (~y.isna())`). -/
def validPairs (data : List CalRow) (m t : String) : List (ℚ × ℚ) :=
  data.filterMap (fun r =>
    match r m, r t with
    | some a, some b => some (a, b)
    | _, _ => none)

/-- Non-missing values of column `t` over the whole dataset. -/
def colVals (data : List CalRow) (t : String) : List ℚ :=
  data.filterMap (fun r => r t)

/-- `np.polyfit(x, y, 1)` on NaN-free points, via the degree-1
least-squares closed form (normal equations).  For a rank-deficient
design (all x equal) ℚ's division by zero yields 0 where numpy would
return the scaled minimum-norm solution; no theorem below inspects
that case's value. -/
def polyfit1 (pairs : List (ℚ × ℚ)) : ℚ × ℚ :=
  let n : ℚ := pairs.length
  let sx := (pairs.map (fun p => p.1)).sum
  let sy := (pairs.map (fun p => p.2)).sum
  let sxx := (pairs.map (fun p => p.1 * p.1)).sum
  let sxy := (pairs.map (fun p => p.1 * p.2)).sum
  let slope := (n * sxy - sx * sy) / (n * sxx - sx * sx)
  (slope, (sy - slope * sx) / n)

/-- The slope/intercept chosen for one (moisture, tension) column pair:
the regression when more than one valid pair exists, otherwise the
fixed slope -2.0 with the column median of tension as intercept
(dashboard.py lines 473-479).  `y.median()` of an all-missing column
is NaN, hence the `RFloat` intercept. -/
def fit_level (data : List CalRow) (m t : String) : RFloat × RFloat :=
  if 1 < (validPairs data m t).length then
    ((some (polyfit1 (validPairs data m t)).1), (some (polyfit1 (validPairs data m t)).2))
  else
    (some (-2), medianQ (colVals data t))

/-- The derived tension target for one column pair: the (possibly
fallback) line evaluated at the moisture target, clamped by
`max(-100.0, min(1500.0, predicted))` (dashboard.py lines 480-481). -/
def levelTarget (data : List CalRow) (tg : String → ℚ) (m t : String) : RFloat :=
  let sc := fit_level data m t
  let predicted := radd sc.2 (rmul sc.1 (some (tg m)))
  pymax (some (-100)) (pymin (some 1500) predicted)

/-- The loop of `derive_tension_targets`:
`for i, m_col in enumerate(sorted(moisture_cols)):
   t_col = sorted(tension_cols)[i]; ...` — iterating over all sorted
moisture columns and indexing the sorted tension list, which raises
IndexError when the moisture list is the longer one. -/
def dttGo (data : List CalRow) (tg : String → ℚ) (ts : List String) :
    List String → Nat → Except String (List (String × RFloat))
  | [], _ => .ok []
  | m :: ms, i =>
    match ts.get? i with
    | none => .error "IndexError"
    | some t => (dttGo data tg ts ms (i + 1)).map (fun rest => (t, levelTarget data tg m t) :: rest)

/-- `derive_tension_targets` (dashboard.py lines 460-483).  The result
models the returned `targets` dict as an association list keyed by the
tension column; `.error` models the uncaught IndexError. -/
def derive_tension_targets (data : List CalRow) (moisture_cols tension_cols : List String)
    (moisture_targets : String → ℚ) : Except String (List (String × RFloat)) :=
  dttGo data moisture_targets (sortStrings tension_cols) (sortStrings moisture_cols) 0

/-!
## Irrigation recommendations (dashboard.py lines 975-993)
-/

/-- Water volume per 1% VWC difference (dashboard.py line 987). -/
def water_per_percent : ℚ := 67 / 100

/-- Python `round` to an integer: round half to even. -/
def roundHalfEven (x : ℚ) : ℤ :=
  let f := ⌊x⌋
  let r := x - f
  if r < 1 / 2 then f
  else if 1 / 2 < r then f + 1
  else if f % 2 = 0 then f else f + 1

/-- Python `round(x, 2)`. -/
def round2 (x : ℚ) : ℚ := (roundHalfEven (x * 100) : ℚ) / 100

/-- `round(·, 2)` lifted over NaN. -/
def rround2 : RFloat → RFloat
  | some a => some (round2 a)
  | none => none

/-- `dryness_score = moisture_diff + tension_diff / 10.0`
(dashboard.py line 984). -/
def dryness_score (moisture_diff tension_diff : RFloat) : RFloat :=
  radd moisture_diff (rdiv tension_diff (some 10))

/-- The recommendation for one device and one paired soil level
(the body of the loop at dashboard.py lines 978-992): the moisture
target is a user input (a real number), the observed averages and the
derived tension target are floats that may be NaN. -/
structure LevelRec where
  action : String
  change_litres : RFloat

/-- Per-level recommendation: `moisture_diff = target - observed`,
`tension_diff = observed - target`, combined into the dryness score;
`"Add"` exactly when the score compares greater than zero (a NaN score
compares false, giving `"Remove"`), and the water change in litres. -/
def level_recommendation (target_m : ℚ) (obs_m target_t obs_t : RFloat) : LevelRec :=
  let moisture_diff := rsub (some target_m) obs_m
  let tension_diff := rsub obs_t target_t
  let score := dryness_score moisture_diff tension_diff
  let action := if rlt (some 0) score then "Add" else "Remove"
  let change_litres := rround2 (rmul (rabs moisture_diff) (some water_per_percent))
  { action := action, change_litres := change_litres }

/-!
## Sensor fault detection (dashboard.py lines 1017-1033)
-/

/-- An alert of the fault detector, identifying device, sensor kind
and level (modelling the formatted message strings). -/
inductive Alert where
  | moistureFault (device : String) (level : Nat)
  | tensionFault (device : String) (level : Nat)
deriving DecidableEq

/-- The moisture half of the alerts loop: flag level `i+1` when the
device-average is missing or exactly zero. -/
def moistureAlerts (device : String) : Nat → List RFloat → List Alert
  | _, [] => []
  | i, v :: vs =>
    (match v with
     | none => [Alert.moistureFault device (i + 1)]
     | some q => if q = 0 then [Alert.moistureFault device (i + 1)] else []) ++
    moistureAlerts device (i + 1) vs

/-- The tension half of the alerts loop: flag level `i+1` when the
device-average is missing or its absolute value exceeds 1500 kPa. -/
def tensionAlerts (device : String) : Nat → List RFloat → List Alert
  | _, [] => []
  | i, v :: vs =>
    (match v with
     | none => [Alert.tensionFault device (i + 1)]
     | some q => if 1500 < |q| then [Alert.tensionFault device (i + 1)] else []) ++
    tensionAlerts device (i + 1) vs

/-- The alerts emitted for one device summary row: its per-level
moisture averages `ms` and tension averages `ts` (dashboard.py lines
1017-1033). -/
def detect_sensor_issues (device : String) (ms ts : List RFloat) : List Alert :=
  moistureAlerts device 0 ms ++ tensionAlerts device 0 ts

/-!
## Seasonal climate pipeline (dashboard.py lines 489-650 and 739-762)
-/

/-- A calendar date; `dayOfYear` is only meaningful on valid dates
(month 1..12, day within the month). -/
structure Date where
  year : Nat
  month : Nat
  day : Nat
deriving DecidableEq

/-- Gregorian leap-year test. -/
def isLeap (y : Nat) : Bool :=
  (y % 4 = 0 && y % 100 ≠ 0) || y % 400 = 0

/-- Number of days of month `m` (1..12) of year `y`. -/
def monthDays (y m : Nat) : Nat :=
  if m = 1 then 31
  else if m = 2 then (if isLeap y then 29 else 28)
  else if m = 3 then 31
  else if m = 4 then 30
  else if m = 5 then 31
  else if m = 6 then 30
  else if m = 7 then 31
  else if m = 8 then 31
  else if m = 9 then 30
  else if m = 10 then 31
  else if m = 11 then 30
  else 31

/-- Days of year `y` elapsed strictly before month `m`. -/
def daysBefore (y m : Nat) : Nat :=
  ((List.range (m - 1)).map (fun i => monthDays y (i + 1))).sum

/-- pandas `Series.dt.dayofyear`: the ordinal day within its calendar
year (1-based); December 31 of a leap year has day-of-year 366. -/
def dayOfYear (d : Date) : Nat := daysBefore d.year d.month + d.day

/-- A row of the frame as consumed by the seasonal model builder. -/
structure SRow where
  ts : Date
  room : String
  val : String → RFloat

/-- `g[cols].astype(float).mean(axis=1)` for one row: the mean of the
row's non-missing values among `cols`, NaN when all are missing. -/
def rowMean (cols : List String) (r : SRow) : RFloat :=
  meanQ (cols.filterMap (fun c => r.val c))

/-- 3x3 determinant. -/
def det3 (a b c d e f g h i : ℚ) : ℚ :=
  a * (e * i - f * h) - b * (d * i - f * g) + c * (d * h - e * g)

/-- `np.linalg.lstsq` for the design `[sin, cos, 1]`, via the normal
equations and Cramer's rule, NaN-propagating through the right-hand
side exactly as LAPACK propagates NaN targets.  Valid for the
full-column-rank design (the generic case); on a singular normal
matrix ℚ's division by zero yields 0 where numpy would return the
minimum-norm solution — no theorem below inspects the coefficients of
a degenerate fit. -/
def lstsq3 (X : List (ℚ × ℚ × ℚ)) (y : List RFloat) : RFloat × RFloat × RFloat :=
  let a11 := (X.map (fun p => p.1 * p.1)).sum
  let a12 := (X.map (fun p => p.1 * p.2.1)).sum
  let a13 := (X.map (fun p => p.1)).sum
  let a22 := (X.map (fun p => p.2.1 * p.2.1)).sum
  let a23 := (X.map (fun p => p.2.1)).sum
  let a33 : ℚ := X.length
  let b1 := rsum (List.zipWith (fun (p : ℚ × ℚ × ℚ) yi => rmul (some p.1) yi) X y)
  let b2 := rsum (List.zipWith (fun (p : ℚ × ℚ × ℚ) yi => rmul (some p.2.1) yi) X y)
  let b3 := rsum y
  let dA := det3 a11 a12 a13 a12 a22 a23 a13 a23 a33
  let d1 := radd (rsub (rmul (some (a22 * a33 - a23 * a23)) b1)
                        (rmul (some a12) (rsub (rmul (some a33) b2) (rmul (some a23) b3))))
                 (rmul (some a13) (rsub (rmul (some a23) b2) (rmul (some a22) b3)))
  let d2 := radd (rsub (rmul (some a11) (rsub (rmul (some a33) b2) (rmul (some a23) b3)))
                        (rmul (some (a12 * a33 - a13 * a23)) b1))
                 (rmul (some a13) (rsub (rmul (some a12) b3) (rmul (some a13) b2)))
  let d3 := radd (rsub (rmul (some a11) (rsub (rmul (some a22) b3) (rmul (some a23) b2)))
                        (rmul (some a12) (rsub (rmul (some a12) b3) (rmul (some a13) b2))))
                 (rmul (some (a13 * a22 - a13 * a22)) b1)
  (rdiv d1 (some dA), rdiv d2 (some dA), rdiv d3 (some dA))

/-- The two optional coefficient triples of one room
(`models[room]["humidity" | "temperature"]`). -/
structure RoomCoeffs where
  humidity : Option (RFloat × RFloat × RFloat)
  temperature : Option (RFloat × RFloat × RFloat)

/-- Insert into a sorted duplicate-free list of strings. -/
def insertStrDedup (s : String) : List String → List String
  | [] => [s]
  | x :: xs => if s = x then x :: xs else if s ≤ x then s :: x :: xs else x :: insertStrDedup s xs

/-- The distinct room labels in pandas `groupby` order (sorted). -/
def roomsOf (df : List SRow) : List String :=
  (df.map (fun r => r.room)).foldr insertStrDedup []

/-- The body of the per-room loop of `build_seasonal_models`
(dashboard.py lines 525-539): the group of the room's rows, the design
matrix of sine/cosine/intercept terms at each row's day-of-year, and
the least-squares coefficients per variable.  A coefficient triple is
recorded whenever the corresponding column list is non-empty and the
room group has at least one row
(`if humidity_cols: ... if len(y_h) > 0: ...`). -/
def roomCoeffsFor (sinf cosf : Nat → ℚ) (df : List SRow)
    (humidity_cols temperature_cols : List String) (room : String) : RoomCoeffs :=
  let g := df.filter (fun r => r.room = room)
  let X := g.map (fun r => (sinf (dayOfYear r.ts), cosf (dayOfYear r.ts), (1 : ℚ)))
  let hum := if humidity_cols = [] then none
    else if 0 < g.length then some (lstsq3 X (g.map (rowMean humidity_cols))) else none
  let temp := if temperature_cols = [] then none
    else if 0 < g.length then some (lstsq3 X (g.map (rowMean temperature_cols))) else none
  { humidity := hum, temperature := temp }

/-- `build_seasonal_models` (dashboard.py lines 489-540): per room, the
least-squares fit of the row-wise mean of the humidity (resp.
temperature) columns against `[sin(2π·doy/365), cos(2π·doy/365), 1]`.
The transcendental factors are supplied as context functions
`sinf cosf : Nat → ℚ` of the day-of-year, keeping the embedding
rational and executable; every claim below is independent of their
values. -/
def build_seasonal_models (sinf cosf : Nat → ℚ) (df : List SRow)
    (humidity_cols temperature_cols : List String) : List (String × RoomCoeffs) :=
  (roomsOf df).map (fun room =>
    (room, roomCoeffsFor sinf cosf df humidity_cols temperature_cols room))

/-- `models[room]` lookup in the association list built above. -/
def lookupRoom (room : String) (l : List (String × RoomCoeffs)) : Option RoomCoeffs :=
  (l.find? (fun p => p.1 = room)).map (fun p => p.2)

/-- The per-room seasonal-average frame (`seasonal_avgs[room]`): its
index (days of year) and its optional `hum_avg` / `temp_avg` columns,
each a valuation of the index. -/
structure DailyStats where
  index : List Nat
  hum_avg : Option (Nat → RFloat)
  temp_avg : Option (Nat → RFloat)

/-- The humidity value `predict_for_room` reads from the seasonal
averages: NaN unless the room has a frame, the day is in its index and
the `hum_avg` column exists (dashboard.py lines 584-588); the stored
value itself may also be NaN. -/
def avgHum (avgs : String → Option DailyStats) (room : String) (doy : Nat) : RFloat :=
  match avgs room with
  | some ds =>
    if doy ∈ ds.index then
      match ds.hum_avg with
      | some f => f doy
      | none => none
    else none
  | none => none

/-- The temperature value read from the seasonal averages
(dashboard.py lines 589-590). -/
def avgTemp (avgs : String → Option DailyStats) (room : String) (doy : Nat) : RFloat :=
  match avgs room with
  | some ds =>
    if doy ∈ ds.index then
      match ds.temp_avg with
      | some f => f doy
      | none => none
    else none
  | none => none

/-- `coeffs[0] * sin_val + coeffs[1] * cos_val + coeffs[2]`. -/
def sinModelVal (c : RFloat × RFloat × RFloat) (sv cv : ℚ) : RFloat :=
  radd (radd (rmul c.1 (some sv)) (rmul c.2.1 (some cv))) c.2.2

/-- `predict_for_room` (dashboard.py lines 543-601): humidity and
temperature prediction for one room and day-of-year.  Seasonal
averages are consulted first; a variable still NaN falls back to the
sinusoidal model when the room and variable have one; otherwise it
stays NaN. -/
def predict_for_room (sinf cosf : Nat → ℚ) (room : String) (doy : Nat)
    (models : String → Option RoomCoeffs) (avgs : String → Option DailyStats) :
    RFloat × RFloat :=
  let hp := avgHum avgs room doy
  let tp := avgTemp avgs room doy
  match models room with
  | none => (hp, tp)
  | some rm =>
    if hp = none ∨ tp = none then
      (if hp = none then
         match rm.humidity with
         | some c => sinModelVal c (sinf doy) (cosf doy)
         | none => hp
       else hp,
       if tp = none then
         match rm.temperature with
         | some c => sinModelVal c (sinf doy) (cosf doy)
         | none => tp
       else tp)
    else (hp, tp)

/-- One day's entry of `get_predictions_over_year` (the body of the
loop at dashboard.py lines 637-649): per variable, the seasonal
average when usable, else the sinusoidal model, else NaN. -/
def yearEntry (sinf cosf : Nat → ℚ) (room : String)
    (models : String → Option RoomCoeffs) (avgs : String → Option DailyStats)
    (doy : Nat) : RFloat × RFloat :=
  let hv := match avgHum avgs room doy with
    | some v => some v
    | none =>
      match models room with
      | some rm =>
        match rm.humidity with
        | some c => sinModelVal c (sinf doy) (cosf doy)
        | none => none
      | none => none
  let tv := match avgTemp avgs room doy with
    | some v => some v
    | none =>
      match models room with
      | some rm =>
        match rm.temperature with
        | some c => sinModelVal c (sinf doy) (cosf doy)
        | none => none
      | none => none
  (hv, tv)

/-- `get_predictions_over_year` (dashboard.py lines 604-650): one row
per day-of-year 1..365, with the same per-variable fallback policy. -/
def get_predictions_over_year (sinf cosf : Nat → ℚ) (room : String)
    (models : String → Option RoomCoeffs) (avgs : String → Option DailyStats) :
    List (Nat × RFloat × RFloat) :=
  (List.range 365).map (fun idx =>
    ((idx + 1), yearEntry sinf cosf room models avgs (idx + 1)))

/-- The seasonal-average table for one room and one variable
(dashboard.py lines 749-762): entries are (day-of-year, per-row
average) observations; the day-of-year group means are reindexed onto
1..365 (dropping any other day) and gap-filled with the same
interpolate/ffill/bfill chain.  Position `i` of the result is day
`i+1`. -/
def seasonal_table (entries : List (Nat × RFloat)) : List RFloat :=
  gapFill ((List.range 365).map (fun i =>
    meanQ (entries.filterMap (fun p => if p.1 = i + 1 then p.2 else none))))

/-!
## Lemmas about the gap-fill chain
-/

theorem getLast?_eq_some_mem {α : Type} : ∀ (l : List α) (a : α), l.getLast? = some a → a ∈ l := by
  intro l
  induction l with
  | nil => intro a h; simp at h
  | cons x xs ih =>
    intro a h
    cases xs with
    | nil => simp_all
    | cons y ys =>
      rw [List.getLast?_cons_cons] at h
      exact List.mem_cons_of_mem x (ih a h)

theorem getLast?_cons_ne {α : Type} (a : α) (l : List α) (h : l ≠ []) :
    (a :: l).getLast? = l.getLast? := by
  cases l with
  | nil => contradiction
  | cons b t => exact List.getLast?_cons_cons

/-- `interpolate` only writes into missing cells: the original valid
values stay members of the column. -/
theorem mem_interpGo {v : ℚ} :
    ∀ (xs : List RFloat) (prev : Option ℚ) (pend : Nat),
      some v ∈ xs → some v ∈ interpGo prev pend xs := by
  intro xs
  induction xs with
  | nil => intro prev pend h; simp at h
  | cons x xs ih =>
    intro prev pend h
    cases x with
    | none =>
      have hx : some v ∈ xs := by
        rcases List.mem_cons.mp h with h1 | h1
        · exact absurd h1.symm (by simp)
        · exact h1
      simpa [interpGo] using ih prev (pend + 1) hx
    | some w =>
      rcases List.mem_cons.mp h with h1 | h1
      · have : w = v := by injection h1.symm
        subst this
        simp [interpGo]
      · simp [interpGo, ih (some w) 0 h1]

theorem mem_interpolate {v : ℚ} (l : List RFloat) (h : some v ∈ l) :
    some v ∈ interpolate l :=
  mem_interpGo l none 0 h

/-- Forward fill started from a valid value leaves no missing cell. -/
theorem ffillGo_isSome {p : ℚ} :
    ∀ (xs : List RFloat), ∀ y ∈ ffillGo (some p) xs, y.isSome := by
  intro xs
  induction xs generalizing p with
  | nil => intro y hy; simp [ffillGo] at hy
  | cons x xs ih =>
    intro y hy
    cases x with
    | none =>
      rcases List.mem_cons.mp (by simpa [ffillGo] using hy) with h1 | h1
      · simp [h1]
      · exact ih _ h1
    | some v =>
      rcases List.mem_cons.mp (by simpa [ffillGo] using hy) with h1 | h1
      · simp [h1]
      · exact ih _ h1

theorem length_ffillGo : ∀ (last : RFloat) (xs : List RFloat),
    (ffillGo last xs).length = xs.length := by
  intro last xs
  induction xs generalizing last with
  | nil => simp [ffillGo]
  | cons x xs ih =>
    cases x with
    | none => simp [ffillGo, ih]
    | some v => simp [ffillGo, ih]

theorem ffillGo_ne_nil (last : RFloat) (xs : List RFloat) (h : xs ≠ []) :
    ffillGo last xs ≠ [] := by
  intro hc
  have := length_ffillGo last xs
  rw [hc] at this
  exact h (List.length_eq_zero.mp this.symm)

/-- A column holding at least one valid value ends, after forward
fill, in a valid value. -/
theorem ffillGo_getLast :
    ∀ (xs : List RFloat) (last : RFloat), (∃ v : ℚ, some v ∈ xs) →
      ∃ w : ℚ, (ffillGo last xs).getLast? = some (some w) := by
  intro xs
  induction xs with
  | nil => rintro last ⟨v, h⟩; simp at h
  | cons x xs ih =>
    rintro last ⟨v, h⟩
    cases xs with
    | nil =>
      have hx : x = some v := by
        rcases List.mem_cons.mp h with h1 | h1
        · exact h1.symm
        · simp at h1
      subst hx
      exact ⟨v, by simp [ffillGo]⟩
    | cons y ys =>
      by_cases hmem : ∃ u : ℚ, some u ∈ y :: ys
      · cases x with
        | none =>
          rcases ih last hmem with ⟨w, hw⟩
          refine ⟨w, ?_⟩
          show (last :: ffillGo last (y :: ys)).getLast? = some (some w)
          rw [getLast?_cons_ne _ _ (ffillGo_ne_nil _ _ (by simp))]
          exact hw
        | some u =>
          rcases ih (some u) hmem with ⟨w, hw⟩
          refine ⟨w, ?_⟩
          show (some u :: ffillGo (some u) (y :: ys)).getLast? = some (some w)
          rw [getLast?_cons_ne _ _ (ffillGo_ne_nil _ _ (by simp))]
          exact hw
      · have hx : x = some v := by
          rcases List.mem_cons.mp h with h1 | h1
          · exact h1.symm
          · exact absurd ⟨v, h1⟩ hmem
        subst hx
        rcases Option.isSome_iff_exists.mp
            (List.getLast?_isSome.mpr (ffillGo_ne_nil (some v) (y :: ys) (by simp))) with ⟨a, ha⟩
        have hamem : a ∈ ffillGo (some v) (y :: ys) := getLast?_eq_some_mem _ a ha
        rcases Option.isSome_iff_exists.mp (ffillGo_isSome _ a hamem) with ⟨w, hw⟩
        refine ⟨w, ?_⟩
        show (some v :: ffillGo (some v) (y :: ys)).getLast? = some (some w)
        rw [getLast?_cons_ne _ _ (ffillGo_ne_nil _ _ (by simp)), ha, hw]

/-- The full interpolate/ffill/bfill chain leaves no missing cell in a
column holding at least one valid value. -/
theorem gapFill_complete {v : ℚ} (l : List RFloat) (h : some v ∈ l) :
    ∀ y ∈ gapFill l, y.isSome := by
  intro y hy
  have h1 : some v ∈ interpolate l := mem_interpolate l h
  rcases ffillGo_getLast (interpolate l) none ⟨v, h1⟩ with ⟨w, hw⟩
  have hrev : (ffillGo none (interpolate l)).reverse.head? = some (some w) := by
    rw [List.head?_reverse]; exact hw
  rcases hrc : (ffillGo none (interpolate l)).reverse with _ | ⟨a, t⟩
  · rw [hrc] at hrev; simp at hrev
  · rw [hrc] at hrev
    have ha : a = some w := by simpa using hrev
    subst ha
    have hy2 : y ∈ ffillGo none (some w :: t) := by
      have hb : gapFill l = (ffillGo none (some w :: t)).reverse := by
        simp only [gapFill, bfill, ffill]
        rw [hrc]
      rw [hb] at hy
      exact List.mem_reverse.mp hy
    have hstep : ffillGo none (some w :: t) = some w :: ffillGo (some w) t := by
      simp [ffillGo]
    rw [hstep] at hy2
    rcases List.mem_cons.mp hy2 with h2 | h2
    · simp [h2]
    · exact ffillGo_isSome t y h2

/-- C4: after `prepare` (resampling followed by the numeric gap fill),
a device holding at least one valid pre-fill sample in a numeric
column has no missing value left in that column; equivalently, a
missing value survives the fill for a device only when every pre-fill
value of that device and column was missing. -/
theorem gap_fill_completeness (df : PFrame) (freq c d : String) :
    ((∃ v : ℚ, (d, some v) ∈ colAfterResample df freq c) →
      ∀ p ∈ prepareCol df freq c, p.1 = d → p.2.isSome) ∧
    (∀ p ∈ prepareCol df freq c, p.1 = d → p.2 = none →
      ∀ q ∈ colAfterResample df freq c, q.1 = d → q.2 = none) := by
  have main : (∃ v : ℚ, (d, some v) ∈ colAfterResample df freq c) →
      ∀ p ∈ prepareCol df freq c, p.1 = d → p.2.isSome := by
    rintro ⟨v, hv⟩ p hp _
    have hsnd : p.2 ∈ gapFill ((colAfterResample df freq c).map Prod.snd) :=
      (List.of_mem_zip (by simpa [prepareCol, gapFillCol] using hp)).2
    have hmem : some v ∈ (colAfterResample df freq c).map Prod.snd := by
      have := List.mem_map_of_mem Prod.snd hv
      simpa using this
    exact gapFill_complete _ hmem p.2 hsnd
  refine ⟨main, ?_⟩
  intro p hp hpd hpnone q hq hqd
  by_contra hqne
  rcases Option.ne_none_iff_exists'.mp hqne with ⟨v, hv⟩
  have hmem : (d, some v) ∈ colAfterResample df freq c := by
    have hq2 : q = (d, some v) := by
      cases q
      simp_all
    rw [← hq2]
    exact hq
  have := main ⟨v, hmem⟩ p hp hpd
  rw [hpnone] at this
  simp at this

/-- A one-row frame used to instantiate the gap-fill theorem. -/
def c4df : PFrame :=
  { numCols := ["c"],
    rows := [{ ts := 0, device := "D", room := "R1", val := fun s => if s = "c" then some 5 else none }] }

/-- Witness for `gap_fill_completeness` at a concrete frame. -/
theorem gap_fill_completeness_witness :
    (("D", (some 5 : RFloat)) ∈ colAfterResample c4df "10T" "c") ∧
    (∀ p ∈ prepareCol c4df "10T" "c", p.1 = "D" → p.2.isSome) :=
  ⟨by simp [colAfterResample, resample_data, c4df],
   (gap_fill_completeness c4df "10T" "c" "D").1
     ⟨5, by simp [colAfterResample, resample_data, c4df]⟩⟩

/-- C8: resampling at the raw 10-minute frequency is the identity on
the dataset: no rows are added, removed or altered. -/
theorem resample_raw_identity : ∀ df : PFrame, resample_data df "10T" = df := by
  intro df
  simp [resample_data]

/-- C6: the per-level recommendation computes
`moisture_diff = target − observed`, `tension_diff = observed − target`
and `dryness_score = moisture_diff + tension_diff / 10`, acting
"Add" exactly when the score compares greater than zero and "Remove"
otherwise; in particular `moisture_diff = 1` with
`tension_diff = −20` scores −1 and yields "Remove". -/
theorem dryness_score_recommendation :
    (∀ (target_m : ℚ) (obs_m target_t obs_t : RFloat),
      (level_recommendation target_m obs_m target_t obs_t).action =
        if rlt (some 0) (dryness_score (rsub (some target_m) obs_m) (rsub obs_t target_t))
        then "Add" else "Remove") ∧
    rsub (some 1) (some 0) = some 1 ∧
    rsub (some 0) (some 20) = some (-20) ∧
    dryness_score (some 1) (some (-20)) = some (-1) ∧
    (level_recommendation 1 (some 0) (some 20) (some 0)).action = "Remove" := by
  refine ⟨fun _ _ _ _ => rfl, ?_, ?_, ?_, ?_⟩
  · norm_num [rsub]
  · norm_num [rsub]
  · norm_num [dryness_score, radd, rdiv]
  · norm_num [level_recommendation, dryness_score, rsub, radd, rdiv, rlt]

/-!
## Fault-detector characterization (C7)
-/

theorem mem_moistureAlerts (d : String) :
    ∀ (vs : List RFloat) (i0 k : Nat),
      Alert.moistureFault d k ∈ moistureAlerts d i0 vs ↔
        ∃ j v, vs.get? j = some v ∧ k = i0 + j + 1 ∧ (v = none ∨ v = some 0) := by
  intro vs
  induction vs with
  | nil => intro i0 k; simp [moistureAlerts]
  | cons v vs ih =>
    intro i0 k
    constructor
    · intro h
      rcases List.mem_append.mp (by simpa [moistureAlerts] using h) with h1 | h1
      · have hk : k = i0 + 1 ∧ (v = none ∨ v = some 0) := by
          cases v with
          | none =>
            simp at h1
            exact ⟨h1, Or.inl rfl⟩
          | some q =>
            by_cases hq : q = 0
            · subst hq
              simp at h1
              exact ⟨h1, Or.inr rfl⟩
            · simp [hq] at h1
        exact ⟨0, v, rfl, by omega, hk.2⟩
      · rcases (ih (i0 + 1) k).mp h1 with ⟨j, v', hget, hk, hcond⟩
        exact ⟨j + 1, v', by simpa using hget, by omega, hcond⟩
    · rintro ⟨j, v', hget, hk, hcond⟩
      cases j with
      | zero =>
        have hv : v = v' := by simpa using hget
        subst hv
        apply List.mem_append.mpr
        refine Or.inl ?_ |> (by simpa [moistureAlerts] using ·)
        rcases hcond with hc | hc <;> subst hc <;> simp <;> omega
      | succ j' =>
        apply List.mem_append.mpr
        refine Or.inr ?_ |> (by simpa [moistureAlerts] using ·)
        exact (ih (i0 + 1) k).mpr ⟨j', v', by simpa using hget, by omega, hcond⟩

theorem mem_tensionAlerts (d : String) :
    ∀ (vs : List RFloat) (i0 k : Nat),
      Alert.tensionFault d k ∈ tensionAlerts d i0 vs ↔
        ∃ j v, vs.get? j = some v ∧ k = i0 + j + 1 ∧
          (v = none ∨ ∃ q, v = some q ∧ 1500 < |q|) := by
  intro vs
  induction vs with
  | nil => intro i0 k; simp [tensionAlerts]
  | cons v vs ih =>
    intro i0 k
    constructor
    · intro h
      rcases List.mem_append.mp (by simpa [tensionAlerts] using h) with h1 | h1
      · have hk : k = i0 + 1 ∧ (v = none ∨ ∃ q, v = some q ∧ 1500 < |q|) := by
          cases v with
          | none =>
            simp at h1
            exact ⟨h1, Or.inl rfl⟩
          | some q =>
            by_cases hq : 1500 < |q|
            · simp [hq] at h1
              exact ⟨h1, Or.inr ⟨q, rfl, hq⟩⟩
            · simp [hq] at h1
        exact ⟨0, v, rfl, by omega, hk.2⟩
      · rcases (ih (i0 + 1) k).mp h1 with ⟨j, v', hget, hk, hcond⟩
        exact ⟨j + 1, v', by simpa using hget, by omega, hcond⟩
    · rintro ⟨j, v', hget, hk, hcond⟩
      cases j with
      | zero =>
        have hv : v = v' := by simpa using hget
        subst hv
        apply List.mem_append.mpr
        refine Or.inl ?_ |> (by simpa [tensionAlerts] using ·)
        rcases hcond with hc | ⟨q, hq, hgt⟩
        · subst hc; simp; omega
        · subst hq; simp [hgt]; omega
      | succ j' =>
        apply List.mem_append.mpr
        refine Or.inr ?_ |> (by simpa [tensionAlerts] using ·)
        exact (ih (i0 + 1) k).mpr ⟨j', v', by simpa using hget, by omega, hcond⟩

theorem moistureFault_not_mem_tensionAlerts (d d' : String) (k : Nat) :
    ∀ (vs : List RFloat) (i0 : Nat), Alert.moistureFault d' k ∉ tensionAlerts d i0 vs := by
  intro vs
  induction vs with
  | nil => intro i0; simp [tensionAlerts]
  | cons v vs ih =>
    intro i0 h
    rcases List.mem_append.mp (by simpa [tensionAlerts] using h) with h1 | h1
    · cases v with
      | none => simp at h1
      | some q =>
        by_cases hq : 1500 < |q| <;> simp [hq] at h1
    · exact ih (i0 + 1) h1

theorem tensionFault_not_mem_moistureAlerts (d d' : String) (k : Nat) :
    ∀ (vs : List RFloat) (i0 : Nat), Alert.tensionFault d' k ∉ moistureAlerts d i0 vs := by
  intro vs
  induction vs with
  | nil => intro i0; simp [moistureAlerts]
  | cons v vs ih =>
    intro i0 h
    rcases List.mem_append.mp (by simpa [moistureAlerts] using h) with h1 | h1
    · cases v with
      | none => simp at h1
      | some q =>
        by_cases hq : q = 0 <;> simp [hq] at h1
    · exact ih (i0 + 1) h1

/-- C7: the fault detector emits a moisture alert for level `k`
exactly when the level-`k` device average is missing or exactly zero,
and a tension alert exactly when the level-`k` average is missing or
has absolute value above 1500 kPa; the summary with moisture level 1
at 0.0 and tension level 2 at 1800 produces exactly those two alerts
and no others. -/
theorem sensor_fault_alert_characterization :
    (∀ (d : String) (ms ts : List RFloat) (k : Nat),
      (Alert.moistureFault d k ∈ detect_sensor_issues d ms ts ↔
        ∃ j v, ms.get? j = some v ∧ k = j + 1 ∧ (v = none ∨ v = some 0)) ∧
      (Alert.tensionFault d k ∈ detect_sensor_issues d ms ts ↔
        ∃ j v, ts.get? j = some v ∧ k = j + 1 ∧ (v = none ∨ ∃ q, v = some q ∧ 1500 < |q|))) ∧
    detect_sensor_issues "D" [some 0, some 30, some 25] [some 100, some 1800, some 200] =
      [Alert.moistureFault "D" 1, Alert.tensionFault "D" 2] := by
  constructor
  · intro d ms ts k
    constructor
    · rw [detect_sensor_issues, List.mem_append]
      constructor
      · rintro (h | h)
        · rcases (mem_moistureAlerts d ms 0 k).mp h with ⟨j, v, hg, hk, hc⟩
          exact ⟨j, v, hg, by omega, hc⟩
        · exact absurd h (moistureFault_not_mem_tensionAlerts d d k ts 0)
      · rintro ⟨j, v, hg, hk, hc⟩
        exact Or.inl ((mem_moistureAlerts d ms 0 k).mpr ⟨j, v, hg, by omega, hc⟩)
    · rw [detect_sensor_issues, List.mem_append]
      constructor
      · rintro (h | h)
        · exact absurd h (tensionFault_not_mem_moistureAlerts d d k ms 0)
        · rcases (mem_tensionAlerts d ts 0 k).mp h with ⟨j, v, hg, hk, hc⟩
          exact ⟨j, v, hg, by omega, hc⟩
      · rintro ⟨j, v, hg, hk, hc⟩
        exact Or.inr ((mem_tensionAlerts d ts 0 k).mpr ⟨j, v, hg, by omega, hc⟩)
  · norm_num [detect_sensor_issues, moistureAlerts, tensionAlerts]

theorem clamp_bounds (x : RFloat) :
    ∃ q : ℚ, pymax (some (-100)) (pymin (some 1500) x) = some q ∧ -100 ≤ q ∧ q ≤ 1500 := by
  cases x with
  | none =>
    refine ⟨1500, ?_, by norm_num, le_refl _⟩
    simp [pymin, pymax, rlt]
    norm_num
  | some v =>
    by_cases h1 : v < 1500
    · have hmin : pymin (some 1500) (some v) = some v := by
        simp [pymin, rlt, h1]
      rw [hmin]
      by_cases h2 : -100 < v
      · exact ⟨v, by simp [pymax, rlt, h2], le_of_lt h2, le_of_lt h1⟩
      · refine ⟨-100, ?_, le_refl _, by norm_num⟩
        simp [pymax, rlt, h2]
    · have hmin : pymin (some 1500) (some v) = some 1500 := by
        simp [pymin, rlt, h1]
      rw [hmin]
      refine ⟨1500, ?_, by norm_num, le_refl _⟩
      simp [pymax, rlt]
      norm_num

theorem levelTarget_bounds (data : List CalRow) (tg : String → ℚ) (m t : String) :
    ∃ q : ℚ, levelTarget data tg m t = some q ∧ -100 ≤ q ∧ q ≤ 1500 := by
  rw [levelTarget]
  exact clamp_bounds _

theorem dttGo_ok_bounds (data : List CalRow) (tg : String → ℚ) (tsS : List String) :
    ∀ (msS : List String) (i : Nat) (res : List (String × RFloat)),
      dttGo data tg tsS msS i = .ok res →
      ∀ p ∈ res, ∃ q : ℚ, p.2 = some q ∧ -100 ≤ q ∧ q ≤ 1500 := by
  intro msS
  induction msS with
  | nil =>
    intro i res h p hp
    rw [dttGo] at h
    injection h with h
    subst h
    simp at hp
  | cons m ms ih =>
    intro i res h p hp
    cases hgi : tsS.get? i with
    | none =>
      simp only [dttGo, hgi] at h
      exact absurd h (by simp)
    | some t =>
      simp only [dttGo, hgi] at h
      cases hrec : dttGo data tg tsS ms (i + 1) with
      | error e =>
        rw [hrec] at h
        simp only [Except.map] at h
        exact absurd h (by simp)
      | ok res' =>
        rw [hrec] at h
        simp only [Except.map, Except.ok.injEq] at h
        subst h
        rcases List.mem_cons.mp hp with h2 | h2
        · subst h2
          exact levelTarget_bounds data tg m t
        · exact ih (i + 1) res' hrec p h2

/-- C2: every tension target returned by `derive_tension_targets` is a
real (non-NaN) value lying in the closed interval [-100, 1500] kPa,
for every dataset, column lists and moisture-target map on which the
function completes — including degenerate fits (too few valid pairs,
undefined median, NaN predicted value, which clamps to 1500). -/
theorem tension_targets_within_clamp_bounds
    (data : List CalRow) (moisture_cols tension_cols : List String)
    (moisture_targets : String → ℚ) (res : List (String × RFloat))
    (h : derive_tension_targets data moisture_cols tension_cols moisture_targets = .ok res) :
    ∀ p ∈ res, ∃ q : ℚ, p.2 = some q ∧ -100 ≤ q ∧ q ≤ 1500 :=
  dttGo_ok_bounds data moisture_targets (sortStrings tension_cols)
    (sortStrings moisture_cols) 0 res h

theorem tension_targets_within_clamp_bounds_witness :
    derive_tension_targets [] ["a"] ["t"] (fun _ => 0) = .ok [("t", some 1500)] ∧
    ∃ q : ℚ, (("t", (some 1500 : RFloat)) : String × RFloat).2 = some q ∧ -100 ≤ q ∧ q ≤ 1500 := by
  have hok : derive_tension_targets [] ["a"] ["t"] (fun _ => 0) = .ok [("t", some 1500)] := by
    simp [derive_tension_targets, dttGo, sortStrings, insertStr, List.get?,
      levelTarget, fit_level, validPairs, colVals, medianQ, sortQ, radd, rmul,
      pymin, pymax, rlt, Except.map]
    norm_num
  exact ⟨hok, tension_targets_within_clamp_bounds [] ["a"] ["t"] (fun _ => 0)
    [("t", some 1500)] hok ("t", some 1500) (List.mem_singleton.mpr rfl)⟩

theorem length_insertStr (s : String) : ∀ l : List String, (insertStr s l).length = l.length + 1 := by
  intro l
  induction l with
  | nil => rfl
  | cons x xs ih =>
    rw [insertStr]
    by_cases h : s ≤ x
    · simp [h]
    · simp [h, ih]

theorem length_sortStrings (l : List String) : (sortStrings l).length = l.length := by
  induction l with
  | nil => rfl
  | cons x xs ih =>
    show (insertStr x (sortStrings xs)).length = xs.length + 1
    rw [length_insertStr, ih]

theorem dttGo_ok_of_le (data : List CalRow) (tg : String → ℚ) (tsS : List String) :
    ∀ (msS : List String) (i : Nat), msS.length + i ≤ tsS.length →
      dttGo data tg tsS msS i =
        .ok (List.zipWith (fun m t => (t, levelTarget data tg m t)) msS (tsS.drop i)) := by
  intro msS
  induction msS with
  | nil => intro i h; rw [dttGo]; simp
  | cons m ms ih =>
    intro i h
    have hi : i < tsS.length := by
      simp only [List.length_cons] at h
      omega
    have hget : tsS.get? i = some tsS[i] := by
      rw [List.get?_eq_getElem?, List.getElem?_eq_getElem hi]
    simp only [dttGo, hget]
    rw [ih (i + 1) (by simp only [List.length_cons] at h; omega)]
    rw [List.drop_eq_getElem_cons hi, List.zipWith_cons_cons]
    rfl

theorem dttGo_error_of_lt (data : List CalRow) (tg : String → ℚ) (tsS : List String) :
    ∀ (msS : List String) (i : Nat), msS ≠ [] → tsS.length < i + msS.length →
      dttGo data tg tsS msS i = .error "IndexError" := by
  intro msS
  induction msS with
  | nil => intro i h; exact absurd rfl h
  | cons m ms ih =>
    intro i _ hlen
    cases hgi : tsS.get? i with
    | none => simp only [dttGo, hgi]
    | some t =>
      have hi : i < tsS.length := by
        by_contra hc
        rw [List.get?_eq_none.mpr (by omega)] at hgi
        exact absurd hgi (by simp)
      have hms : ms ≠ [] := by
        intro hc
        subst hc
        simp only [List.length_cons, List.length_nil] at hlen
        omega
      simp only [dttGo, hgi]
      rw [ih (i + 1) hms (by simp only [List.length_cons] at hlen ⊢; omega)]
      rfl

/-- C9 (amended): `derive_tension_targets` pairs the i-th
alphabetically sorted moisture column with the i-th sorted tension
column.  When the tension list is at least as long as the moisture
list it completes, returning exactly
min(moisture count, tension count) = moisture count targets,
truncating the tension list; when the moisture list is strictly
longer it does not complete: it raises IndexError. -/
theorem pairing_truncation_and_error
    (data : List CalRow) (moisture_cols tension_cols : List String) (tg : String → ℚ) :
    (moisture_cols.length ≤ tension_cols.length →
      derive_tension_targets data moisture_cols tension_cols tg =
        .ok (List.zipWith (fun m t => (t, levelTarget data tg m t))
          (sortStrings moisture_cols) (sortStrings tension_cols)) ∧
      ∀ res, derive_tension_targets data moisture_cols tension_cols tg = .ok res →
        res.length = min moisture_cols.length tension_cols.length) ∧
    (tension_cols.length < moisture_cols.length →
      derive_tension_targets data moisture_cols tension_cols tg = .error "IndexError") := by
  constructor
  · intro hle
    have hok : derive_tension_targets data moisture_cols tension_cols tg =
        .ok (List.zipWith (fun m t => (t, levelTarget data tg m t))
          (sortStrings moisture_cols) (sortStrings tension_cols)) := by
      rw [derive_tension_targets]
      have := dttGo_ok_of_le data tg (sortStrings tension_cols) (sortStrings moisture_cols) 0
        (by rw [length_sortStrings, length_sortStrings]; omega)
      rw [this]
      simp
    refine ⟨hok, ?_⟩
    intro res hres
    rw [hok] at hres
    injection hres with hres
    rw [← hres, List.length_zipWith, length_sortStrings, length_sortStrings]
  · intro hlt
    rw [derive_tension_targets]
    apply dttGo_error_of_lt
    · intro hc
      have := length_sortStrings moisture_cols
      rw [hc] at this
      simp only [List.length_nil] at this
      omega
    · rw [length_sortStrings, length_sortStrings]
      omega

/-- C9 counterexample: with two moisture columns and one tension
column the function raises IndexError instead of completing with
min(2, 1) = 1 target. -/
theorem pairing_moisture_excess_index_error :
    derive_tension_targets [] ["a", "b"] ["t"] (fun _ => 0) = .error "IndexError" := by
  norm_num [derive_tension_targets, dttGo, sortStrings, insertStr, List.get?, Except.map]

theorem pairing_truncation_and_error_witness :
    (["b", "a"] : List String).length ≤ (["t", "u", "v"] : List String).length ∧
    derive_tension_targets [] ["b", "a"] ["t", "u", "v"] (fun _ => 0) =
      .ok (List.zipWith (fun m t => (t, levelTarget [] (fun _ => 0) m t))
        (sortStrings ["b", "a"]) (sortStrings ["t", "u", "v"])) :=
  ⟨by norm_num,
   ((pairing_truncation_and_error [] ["b", "a"] ["t", "u", "v"] (fun _ => 0)).1 (by norm_num)).1⟩

def c5data : List CalRow := [fun c => if c = "m" then some 30 else none]

/-- C5 counterexample: with no non-missing tension values the
fallback intercept is the NaN median, not 0; the derived target is
the clamp of NaN, 1500.0, not the 0-intercept line value -20. -/
theorem fallback_intercept_nan_not_zero :
    fit_level c5data "m" "t" = (some (-2), none) ∧
    fit_level c5data "m" "t" ≠ (some (-2), some 0) ∧
    levelTarget c5data (fun _ => 10) "m" "t" = some 1500 ∧
    levelTarget c5data (fun _ => 10) "m" "t" ≠ some (-20) := by
  have h1 : fit_level c5data "m" "t" = (some (-2), none) := by
    simp [fit_level, c5data, validPairs, colVals, List.filterMap, medianQ, sortQ]
  have h2 : levelTarget c5data (fun _ => 10) "m" "t" = some 1500 := by
    simp [levelTarget, fit_level, c5data, validPairs, colVals, List.filterMap, medianQ, sortQ,
      radd, rmul, pymin, pymax, rlt]
    norm_num
  refine ⟨h1, by rw [h1]; simp, h2, ?_⟩
  rw [h2]
  intro hc
  rw [Option.some.injEq] at hc
  norm_num at hc

/-- C5 (amended): with fewer than 2 valid paired observations the
fit falls back to slope -2.0 and intercept equal to the median of the
non-missing tension values; when that median is undefined (no
non-missing tension values) the intercept is NaN (not 0) and the
clamped target evaluates to 1500.0. -/
theorem fallback_slope_median_intercept
    (data : List CalRow) (m t : String) (tg : String → ℚ)
    (h : (validPairs data m t).length ≤ 1) :
    fit_level data m t = (some (-2), medianQ (colVals data t)) ∧
    (colVals data t = [] → levelTarget data tg m t = some 1500) := by
  have hfit : fit_level data m t = (some (-2), medianQ (colVals data t)) := by
    rw [fit_level, if_neg (by omega)]
  refine ⟨hfit, ?_⟩
  intro hempty
  rw [levelTarget, hfit]
  simp [hempty, medianQ, sortQ, radd, rmul, pymin, pymax, rlt]
  norm_num

theorem fallback_slope_median_intercept_witness :
    (validPairs c5data "m" "t").length ≤ 1 ∧
    fit_level c5data "m" "t" = (some (-2), medianQ (colVals c5data "t")) := by
  have hlen : (validPairs c5data "m" "t").length ≤ 1 := by
    simp [validPairs, c5data, List.filterMap]
  exact ⟨hlen, (fallback_slope_median_intercept c5data "m" "t" (fun _ => 0) hlen).1⟩

theorem mem_insertStrDedup (x s : String) :
    ∀ l : List String, x ∈ insertStrDedup s l ↔ x = s ∨ x ∈ l := by
  intro l
  induction l with
  | nil => simp [insertStrDedup]
  | cons y ys ih =>
    rw [insertStrDedup]
    by_cases h1 : s = y
    · subst h1
      simp only [if_pos rfl]
      constructor
      · intro h
        rcases List.mem_cons.mp h with h2 | h2
        · exact Or.inl h2
        · exact Or.inr (List.mem_cons_of_mem _ h2)
      · rintro (h2 | h2)
        · subst h2; exact List.mem_cons_self _ _
        · exact h2
    · rw [if_neg h1]
      by_cases h2 : s ≤ y
      · rw [if_pos h2]
        constructor
        · intro h
          rcases List.mem_cons.mp h with h3 | h3
          · exact Or.inl h3
          · exact Or.inr h3
        · rintro (h3 | h3)
          · subst h3; exact List.mem_cons_self _ _
          · exact List.mem_cons_of_mem _ h3
      · rw [if_neg h2]
        constructor
        · intro h
          rcases List.mem_cons.mp h with h3 | h3
          · exact Or.inr (h3 ▸ List.mem_cons_self _ _)
          · rcases (ih).mp h3 with h4 | h4
            · exact Or.inl h4
            · exact Or.inr (List.mem_cons_of_mem _ h4)
        · rintro (h3 | h3)
          · exact List.mem_cons_of_mem _ ((ih).mpr (Or.inl h3))
          · rcases List.mem_cons.mp h3 with h4 | h4
            · exact h4 ▸ List.mem_cons_self _ _
            · exact List.mem_cons_of_mem _ ((ih).mpr (Or.inr h4))

theorem mem_roomsOf {r : SRow} {df : List SRow} (h : r ∈ df) : r.room ∈ roomsOf df := by
  rw [roomsOf]
  induction df with
  | nil => simp at h
  | cons x xs ih =>
    rcases List.mem_cons.mp h with h1 | h1
    · subst h1
      exact (mem_insertStrDedup _ _ _).mpr (Or.inl rfl)
    · exact (mem_insertStrDedup _ _ _).mpr (Or.inr (ih h1))

theorem lookupRoom_map_of_mem (F : String → RoomCoeffs) :
    ∀ (rooms : List String) (room : String), room ∈ rooms →
      lookupRoom room (rooms.map (fun r => (r, F r))) = some (F room) := by
  intro rooms
  induction rooms with
  | nil => intro room h; simp at h
  | cons r rs ih =>
    intro room h
    by_cases h1 : r = room
    · subst h1
      simp [lookupRoom, List.find?_cons_of_pos]
    · have h2 : room ∈ rs := by
        rcases List.mem_cons.mp h with h3 | h3
        · exact absurd h3.symm h1
        · exact h3
      have := ih room h2
      simp only [lookupRoom, List.map_cons] at this ⊢
      rw [List.find?_cons_of_neg _ (by simp [h1])]
      exact this

/-- C3 counterexample: a room with exactly three humidity readings
still receives a humidity model. -/
def c3df : List SRow :=
  [{ ts := ⟨2023, 1, 1⟩, room := "Room 1", val := fun c => if c = "h" then some 50 else none },
   { ts := ⟨2023, 1, 2⟩, room := "Room 1", val := fun c => if c = "h" then some 55 else none },
   { ts := ⟨2023, 1, 3⟩, room := "Room 1", val := fun c => if c = "h" then some 60 else none }]

theorem seasonal_model_fit_from_three_points :
    c3df.length = 3 ∧
    ((lookupRoom "Room 1" (build_seasonal_models (fun _ => 0) (fun _ => 0) c3df ["h"] [])).map
      (fun rc => rc.humidity.isSome)) = some true := by
  constructor
  · rfl
  · simp [lookupRoom, build_seasonal_models, roomCoeffsFor, c3df, roomsOf, insertStrDedup,
      List.find?]

/-- C3 (amended): `build_seasonal_models` has no minimum-sample
check: a humidity (resp. temperature) model is produced for every
room occurring in the data whenever the corresponding column list is
non-empty, regardless of how few finite target values exist. -/
theorem seasonal_model_present_without_sample_check
    (sinf cosf : Nat → ℚ) (df : List SRow) (hc tc : List String) (room : String)
    (hroom : ∃ r ∈ df, r.room = room) (hhc : hc ≠ []) :
    ∃ rc, lookupRoom room (build_seasonal_models sinf cosf df hc tc) = some rc ∧
      rc.humidity.isSome ∧ (tc ≠ [] → rc.temperature.isSome) := by
  obtain ⟨r, hr, hrm⟩ := hroom
  have hmem : room ∈ roomsOf df := hrm ▸ mem_roomsOf hr
  refine ⟨roomCoeffsFor sinf cosf df hc tc room,
    lookupRoom_map_of_mem _ (roomsOf df) room hmem, ?_, ?_⟩
  · have hg : 0 < (df.filter (fun x => x.room = room)).length := by
      have : r ∈ df.filter (fun x => x.room = room) :=
        List.mem_filter.mpr ⟨hr, by simp [hrm]⟩
      exact List.length_pos.mpr (List.ne_nil_of_mem this)
    simp [roomCoeffsFor, hhc, hg]
  · intro htc
    have hg : 0 < (df.filter (fun x => x.room = room)).length := by
      have : r ∈ df.filter (fun x => x.room = room) :=
        List.mem_filter.mpr ⟨hr, by simp [hrm]⟩
      exact List.length_pos.mpr (List.ne_nil_of_mem this)
    simp [roomCoeffsFor, htc, hg]

theorem seasonal_model_present_without_sample_check_witness :
    ∃ rc, lookupRoom "Room 1" (build_seasonal_models (fun _ => 0) (fun _ => 0) c3df ["h"] []) =
        some rc ∧ rc.humidity.isSome ∧ (([] : List String) ≠ [] → rc.temperature.isSome) :=
  seasonal_model_present_without_sample_check (fun _ => 0) (fun _ => 0) c3df ["h"] [] "Room 1"
    ⟨{ ts := ⟨2023, 1, 1⟩, room := "Room 1", val := fun c => if c = "h" then some 50 else none },
     List.mem_cons_self _ _, rfl⟩
    (by simp)

theorem length_interpGo :
    ∀ (xs : List RFloat) (prev : Option ℚ) (pend : Nat),
      (interpGo prev pend xs).length = pend + xs.length := by
  intro xs
  induction xs with
  | nil => intro prev pend; simp [interpGo]
  | cons x xs ih =>
    intro prev pend
    cases x with
    | none =>
      simp only [interpGo, ih, List.length_cons]
      omega
    | some v =>
      simp only [interpGo]
      cases prev with
      | none =>
        simp only [List.length_append, List.length_replicate, List.length_cons, ih]
        omega
      | some p =>
        show ((gapVals p v pend) ++ some v :: interpGo (some v) 0 xs).length =
          pend + (some v :: xs).length
        rw [List.length_append, gapVals, List.length_map, List.length_range,
          List.length_cons, List.length_cons, ih]
        omega

theorem length_gapFill (l : List RFloat) : (gapFill l).length = l.length := by
  rw [gapFill, bfill, ffill, interpolate]
  rw [List.length_reverse, length_ffillGo, List.length_reverse, length_ffillGo,
    length_interpGo]
  omega

theorem filterMap_doy_filter (doy : Nat) (hdoy : doy ≤ 365) :
    ∀ entries : List (Nat × RFloat),
      (entries.filter (fun p => p.1 ≤ 365)).filterMap
          (fun p => if p.1 = doy then p.2 else none) =
        entries.filterMap (fun p => if p.1 = doy then p.2 else none) := by
  intro entries
  induction entries with
  | nil => rfl
  | cons p ps ih =>
    by_cases hp : p.1 ≤ 365
    · rw [List.filter_cons_of_pos (by simpa using hp), List.filterMap_cons,
        List.filterMap_cons, ih]
    · rw [List.filter_cons_of_neg (by simpa using hp), List.filterMap_cons]
      have : p.1 ≠ doy := by omega
      rw [if_neg this, ih]

/-- C10 counterexample: `dayofyear` of December 31 of a leap year is
366, outside 1..365 — leap dates do not collapse into day 365/1. -/
theorem dayofyear_leap_year_dec31 :
    dayOfYear ⟨2024, 12, 31⟩ = 366 ∧ ¬(dayOfYear ⟨2024, 12, 31⟩ ≤ 365) := by
  constructor
  · decide
  · decide

/-- C10 (amended): the day-of-year of any valid date lies in 1..366,
with 366 reached exactly on December 31 of leap years; the
seasonal-average table is defined on days 1..365 only, and entries
with day-of-year outside 1..365 (day 366) are dropped by the reindex
— they contribute to no table cell — rather than collapsing into day
365/1. -/
theorem dayofyear_range_and_table_domain (d : Date)
    (hm1 : 1 ≤ d.month) (hm2 : d.month ≤ 12)
    (hd1 : 1 ≤ d.day) (hd2 : d.day ≤ monthDays d.year d.month) :
    (1 ≤ dayOfYear d ∧ dayOfYear d ≤ 366) ∧
    (dayOfYear d = 366 → isLeap d.year = true ∧ d.month = 12 ∧ d.day = 31) ∧
    (∀ entries : List (Nat × RFloat),
      (seasonal_table entries).length = 365 ∧
      seasonal_table (entries.filter (fun p => p.1 ≤ 365)) = seasonal_table entries) := by
  refine ⟨?_, ?_, ?_⟩
  · rcases d with ⟨y, m, dd⟩
    simp only at hm1 hm2 hd1 hd2 ⊢
    interval_cases m <;>
      cases hly : isLeap y <;>
        simp [dayOfYear, daysBefore, List.range_succ, monthDays, hly] at hd2 ⊢ <;>
          omega
  · rcases d with ⟨y, m, dd⟩
    simp only at hm1 hm2 hd1 hd2 ⊢
    intro h366
    interval_cases m <;>
      cases hly : isLeap y <;>
        simp [dayOfYear, daysBefore, List.range_succ, monthDays, hly] at hd2 h366 ⊢ <;>
          omega
  · intro entries
    constructor
    · rw [seasonal_table, length_gapFill, List.length_map, List.length_range]
    · rw [seasonal_table, seasonal_table]
      congr 1
      apply List.map_congr_left
      intro i hi
      have : i + 1 ≤ 365 := by
        have := List.mem_range.mp hi
        omega
      rw [filterMap_doy_filter (i + 1) this]

theorem dayofyear_range_and_table_domain_witness :
    (1 ≤ dayOfYear ⟨2023, 5, 10⟩ ∧ dayOfYear ⟨2023, 5, 10⟩ ≤ 366) ∧
    (seasonal_table []).length = 365 :=
  ⟨(dayofyear_range_and_table_domain ⟨2023, 5, 10⟩ (by decide) (by decide) (by decide)
      (by decide)).1,
   ((dayofyear_range_and_table_domain ⟨2023, 5, 10⟩ (by decide) (by decide) (by decide)
      (by decide)).2.2 []).1⟩

/-- "A seasonal average exists" for humidity at (room, day-of-year):
the room has an averages frame, the day is in its index, the
`hum_avg` column exists, and the stored value is not NaN. -/
def humAvail (avgs : String → Option DailyStats) (room : String) (doy : Nat) (v : ℚ) : Prop :=
  ∃ ds f, avgs room = some ds ∧ doy ∈ ds.index ∧ ds.hum_avg = some f ∧ f doy = some v

/-- "A seasonal average exists" for temperature at (room, day-of-year). -/
def tempAvail (avgs : String → Option DailyStats) (room : String) (doy : Nat) (v : ℚ) : Prop :=
  ∃ ds f, avgs room = some ds ∧ doy ∈ ds.index ∧ ds.temp_avg = some f ∧ f doy = some v

theorem avgHum_eq_iff (avgs : String → Option DailyStats) (room : String) (doy : Nat) (v : ℚ) :
    avgHum avgs room doy = some v ↔ humAvail avgs room doy v := by
  rw [avgHum, humAvail]
  cases h : avgs room with
  | none => simp
  | some ds =>
    by_cases hidx : doy ∈ ds.index
    · simp only [if_pos hidx]
      cases hcol : ds.hum_avg with
      | none => simp [hcol, hidx]
      | some f => simp [hcol, hidx]
    · simp [if_neg hidx, hidx]

theorem avgTemp_eq_iff (avgs : String → Option DailyStats) (room : String) (doy : Nat) (v : ℚ) :
    avgTemp avgs room doy = some v ↔ tempAvail avgs room doy v := by
  rw [avgTemp, tempAvail]
  cases h : avgs room with
  | none => simp
  | some ds =>
    by_cases hidx : doy ∈ ds.index
    · simp only [if_pos hidx]
      cases hcol : ds.temp_avg with
      | none => simp [hcol, hidx]
      | some f => simp [hcol, hidx]
    · simp [if_neg hidx, hidx]

theorem avgHum_none_iff (avgs : String → Option DailyStats) (room : String) (doy : Nat) :
    avgHum avgs room doy = none ↔ ¬∃ v : ℚ, humAvail avgs room doy v := by
  constructor
  · rintro h ⟨v, hv⟩
    rw [← avgHum_eq_iff] at hv
    rw [h] at hv
    exact Option.noConfusion hv
  · intro h
    cases hv : avgHum avgs room doy with
    | none => rfl
    | some v => exact absurd ⟨v, (avgHum_eq_iff avgs room doy v).mp hv⟩ h

theorem avgTemp_none_iff (avgs : String → Option DailyStats) (room : String) (doy : Nat) :
    avgTemp avgs room doy = none ↔ ¬∃ v : ℚ, tempAvail avgs room doy v := by
  constructor
  · rintro h ⟨v, hv⟩
    rw [← avgTemp_eq_iff] at hv
    rw [h] at hv
    exact Option.noConfusion hv
  · intro h
    cases hv : avgTemp avgs room doy with
    | none => rfl
    | some v => exact absurd ⟨v, (avgTemp_eq_iff avgs room doy v).mp hv⟩ h

/-- The in-line per-day fallback of `get_predictions_over_year`
computes the same pair as `predict_for_room` at that day. -/
theorem yearEntry_eq_predict (sinf cosf : Nat → ℚ) (room : String)
    (models : String → Option RoomCoeffs) (avgs : String → Option DailyStats) (doy : Nat) :
    yearEntry sinf cosf room models avgs doy =
      predict_for_room sinf cosf room doy models avgs := by
  rw [yearEntry, predict_for_room]
  rcases h1 : avgHum avgs room doy with _ | v <;>
    rcases h2 : avgTemp avgs room doy with _ | w <;>
      rcases h3 : models room with _ | rm <;>
        simp [h1, h2, h3]

/-- C1: per variable (humidity, temperature) and day-of-year, when a
seasonal average exists for the room and day, `predict_for_room`
returns exactly that averaged value (never the regression value);
when none exists but the room has a regression model for that
variable, it returns the sinusoidal formula at that day-of-year; when
neither exists the result is NaN; and the corresponding row of
`get_predictions_over_year` carries exactly the same pair. -/
theorem prediction_fallback_policy (sinf cosf : Nat → ℚ) (room : String) (doy : Nat)
    (models : String → Option RoomCoeffs) (avgs : String → Option DailyStats) :
    (∀ v : ℚ, humAvail avgs room doy v →
      (predict_for_room sinf cosf room doy models avgs).1 = some v) ∧
    (∀ v : ℚ, tempAvail avgs room doy v →
      (predict_for_room sinf cosf room doy models avgs).2 = some v) ∧
    ((¬∃ v : ℚ, humAvail avgs room doy v) → ∀ rm c, models room = some rm →
      rm.humidity = some c →
      (predict_for_room sinf cosf room doy models avgs).1 =
        sinModelVal c (sinf doy) (cosf doy)) ∧
    ((¬∃ v : ℚ, tempAvail avgs room doy v) → ∀ rm c, models room = some rm →
      rm.temperature = some c →
      (predict_for_room sinf cosf room doy models avgs).2 =
        sinModelVal c (sinf doy) (cosf doy)) ∧
    ((¬∃ v : ℚ, humAvail avgs room doy v) →
      (models room = none ∨ ∃ rm, models room = some rm ∧ rm.humidity = none) →
      (predict_for_room sinf cosf room doy models avgs).1 = none) ∧
    ((¬∃ v : ℚ, tempAvail avgs room doy v) →
      (models room = none ∨ ∃ rm, models room = some rm ∧ rm.temperature = none) →
      (predict_for_room sinf cosf room doy models avgs).2 = none) ∧
    (1 ≤ doy → doy ≤ 365 →
      (get_predictions_over_year sinf cosf room models avgs).get? (doy - 1) =
        some (doy, predict_for_room sinf cosf room doy models avgs)) := by
  refine ⟨?_, ?_, ?_, ?_, ?_, ?_, ?_⟩
  · intro v hv
    have h1 : avgHum avgs room doy = some v := (avgHum_eq_iff avgs room doy v).mpr hv
    rw [predict_for_room]
    rcases h2 : avgTemp avgs room doy with _ | w <;>
      rcases h3 : models room with _ | rm <;>
        simp [h1, h2, h3]
  · intro v hv
    have h2 : avgTemp avgs room doy = some v := (avgTemp_eq_iff avgs room doy v).mpr hv
    rw [predict_for_room]
    rcases h1 : avgHum avgs room doy with _ | w <;>
      rcases h3 : models room with _ | rm <;>
        simp [h1, h2, h3]
  · intro hna rm c h3 hc
    have h1 : avgHum avgs room doy = none := (avgHum_none_iff avgs room doy).mpr hna
    rw [predict_for_room]
    rcases h2 : avgTemp avgs room doy with _ | w <;>
      simp [h1, h2, h3, hc]
  · intro hna rm c h3 hc
    have h2 : avgTemp avgs room doy = none := (avgTemp_none_iff avgs room doy).mpr hna
    rw [predict_for_room]
    rcases h1 : avgHum avgs room doy with _ | w <;>
      simp [h1, h2, h3, hc]
  · intro hna hmod
    have h1 : avgHum avgs room doy = none := (avgHum_none_iff avgs room doy).mpr hna
    rw [predict_for_room]
    rcases hmod with h3 | ⟨rm, h3, hc⟩ <;>
      rcases h2 : avgTemp avgs room doy with _ | w <;>
        simp [h1, h2, h3]
    · rw [hc]
    · rw [hc]
  · intro hna hmod
    have h2 : avgTemp avgs room doy = none := (avgTemp_none_iff avgs room doy).mpr hna
    rw [predict_for_room]
    rcases hmod with h3 | ⟨rm, h3, hc⟩ <;>
      rcases h1 : avgHum avgs room doy with _ | w <;>
        simp [h1, h2, h3]
    · rw [hc]
    · rw [hc]
  · intro hlo hhi
    rw [get_predictions_over_year, List.get?_map,
      List.get?_range (by omega : doy - 1 < 365)]
    have hd : doy - 1 + 1 = doy := by omega
    rw [Option.map_some', hd, yearEntry_eq_predict]

/-- Concrete seasonal-average context used for the C1 witness. -/
def c1avgs : String → Option DailyStats :=
  fun r => if r = "R" then
    some { index := [5], hum_avg := some (fun _ => some 42), temp_avg := some (fun _ => some 21) }
  else none

theorem prediction_fallback_policy_witness :
    humAvail c1avgs "R" 5 42 ∧
    (predict_for_room (fun _ => 0) (fun _ => 0) "R" 5 (fun _ => none) c1avgs).1 = some 42 :=
  have hav : humAvail c1avgs "R" 5 42 :=
    ⟨{ index := [5], hum_avg := some (fun _ => some 42), temp_avg := some (fun _ => some 21) },
     fun _ => some 42, by simp [c1avgs], by simp, rfl, rfl⟩
  ⟨hav,
   (prediction_fallback_policy (fun _ => 0) (fun _ => 0) "R" 5 (fun _ => none) c1avgs).1 42 hav⟩
